/-
Verification of the request/response lifecycle core of the vendored resty
HTTP client library (Godeps/_workspace/src/gopkg.in/resty.v0).

The middlewares of middleware.go are embedded shallowly: Go maps
(url.Values, http.Header) become association lists with distinct keys and
a Set/Get discipline, mutation becomes explicit state passing, and the
`error` return becomes an explicit result type that also records the one
reachable nil-pointer dereference.  Library pieces that live outside
middleware.go (util.go, request.go, redirect.go) are modelled from the
specification; each such definition carries a doc comment saying so.
-/
import Mathlib

set_option autoImplicit false

namespace Resty

/-! ### Key-value maps (Go `url.Values` / `http.Header`)

Go's `url.Values` and `http.Header` are maps from string keys to lists of
values; `Set k v` replaces the whole entry by `[v]` and `Get k` returns the
first value (or "" when absent).  We model a map as an association list with
at most one entry per key; `setKV` realises `Set`, `lookupKV` realises the
key lookup, and `getKV` realises Go's `Get` with its "" default.  Header
keys are taken to be already in Go's canonical form. -/

def setKV : List (String × String) → String → String → List (String × String)
  | [], k, v => [(k, v)]
  | p :: rest, k, v => if p.1 == k then (k, v) :: rest else p :: setKV rest k v

def lookupKV (l : List (String × String)) (k : String) : Option String :=
  (l.find? (fun p => p.1 == k)).map (·.2)

def getKV (l : List (String × String)) (k : String) : String :=
  (lookupKV l k).getD ""

/-- Go `strings.HasPrefix s pre`, computed on the character lists so that
the kernel can evaluate it. -/
def goStartsWith (s pre : String) : Bool := pre.data.isPrefixOf s.data

/-- Drop the first character (the "@" of a file field key). -/
def goDropOne (s : String) : String := String.mk (s.data.drop 1)

/-- Go map semantics: every key occurs at most once. -/
def KeysDistinct (l : List (String × String)) : Prop :=
  (l.map Prod.fst).Nodup

/-- Apply `Set` for every entry of `src`, in order, starting from `dst`:
the shape of both merge loops in parseRequestURL / parseRequestHeader. -/
def setAll (dst src : List (String × String)) : List (String × String) :=
  src.foldl (fun h p => setKV h p.1 p.2) dst

/-! ### Header-name and method constants (declared in the library outside
middleware.go; values fixed by the HTTP header names they denote). -/

def hdrUserAgentKey : String := "User-Agent"
def hdrAcceptKey : String := "Accept"
def hdrContentTypeKey : String := "Content-Type"
def hdrContentLengthKey : String := "Content-Length"
def hdrAuthorizationKey : String := "Authorization"

def MethodGet : String := "GET"
def MethodPost : String := "POST"
def MethodPut : String := "PUT"
def MethodPatch : String := "PATCH"
def MethodDelete : String := "DELETE"
def MethodHead : String := "HEAD"

/-- Modelled from the spec (the user-agent constant lives outside
middleware.go): the "default identifying string" injected when no explicit
agent header is set. -/
def hdrUserAgentValue : String := "go-resty - https://github.com/go-resty/resty"

/-- Modelled from the spec (util.go is not under src/): emptiness test used
for header values; a value of only whitespace counts as unset
(`strings.TrimSpace` emptiness, computed on the character list). -/
def IsStringEmpty (s : String) : Bool := s.data.all (fun c => c.isWhitespace)

/-- Modelled from the spec (util.go is not under src/): the content-type
contract recognizes the application/json family as structured JSON. -/
def IsJSONType (ct : String) : Bool :=
  ct == "application/json" || ct == "text/json"

/-- Modelled from the spec (util.go is not under src/): the content-type
contract recognizes application/xml and text/xml as structured XML. -/
def IsXMLType (ct : String) : Bool :=
  ct == "application/xml" || ct == "text/xml"

/-- Modelled from the spec (util.go is not under src/): the verbs that
semantically carry a body — POST, PUT, PATCH; GET, HEAD, DELETE excluded. -/
def isPayloadSupported (m : String) : Bool :=
  m == MethodPost || m == MethodPut || m == MethodPatch

/-! ### Body values and buffers -/

/-- The runtime shape of `Request.Body` (an `interface{}` in Go): a string,
a byte slice, a map, a struct, or anything else. Structured values are kept
as field lists of strings, which is what every caller in this repository
sends. Byte slices are carried as strings of their bytes. -/
inductive BodyVal where
  | strVal (s : String)
  | bytesVal (b : String)
  | mapVal (fields : List (String × String))
  | structVal (fields : List (String × String))
  | otherVal
  deriving Repr, DecidableEq

inductive Kind where
  | struct | map | string | slice | other
  deriving Repr, DecidableEq

/-- Modelled from the spec (util.go is not under src/): the base reflect
kind of a body value, driving the marshal dispatch. -/
def getBaseKind : BodyVal → Kind
  | .strVal _ => .string
  | .bytesVal _ => .slice
  | .mapVal _ => .map
  | .structVal _ => .struct
  | .otherVal => .other

/-- Modelled from the spec: JSON marshalling of a structured value
(encoding/json is external to the repository; maps and structs of strings
always marshal, so the encoder is total here). -/
def jsonMarshal : BodyVal → String
  | .mapVal fields =>
      "\x7b" ++ String.intercalate ","
        (fields.map (fun p => "\x22" ++ p.1 ++ "\x22:\x22" ++ p.2 ++ "\x22")) ++ "\x7d"
  | .structVal fields =>
      "\x7b" ++ String.intercalate ","
        (fields.map (fun p => "\x22" ++ p.1 ++ "\x22:\x22" ++ p.2 ++ "\x22")) ++ "\x7d"
  | .strVal s => "\x22" ++ s ++ "\x22"
  | .bytesVal b => b
  | .otherVal => "null"

/-- Modelled from the spec: XML marshalling of a record value
(encoding/xml is external to the repository). -/
def xmlMarshal : BodyVal → String
  | .structVal fields =>
      "<v>" ++ String.intercalate ""
        (fields.map (fun p => "<" ++ p.1 ++ ">" ++ p.2 ++ "</" ++ p.1 ++ ">")) ++ "</v>"
  | _ => ""

/-- Modelled from the spec (util.go is not under src/): content-type
sniffing when none is set — structured values read as JSON, everything
else as plain text. -/
def DetectContentType (b : BodyVal) : String :=
  match getBaseKind b with
  | .struct => "application/json"
  | .map => "application/json"
  | _ => "text/plain"

/-- One part of a multipart body: a plain form field or a streamed file. -/
inductive Part where
  | field (name value : String)
  | file (name content : String)
  deriving Repr, DecidableEq

/-- The serialized body buffer `Request.bodyBuf`: raw bytes or an assembled
multipart document. -/
inductive BufVal where
  | raw (s : String)
  | multipart (parts : List Part)
  deriving Repr, DecidableEq

/-- Byte length of a buffer, for the content-length header. The multipart
framing overhead is a fixed model constant per part. -/
def bufLen : BufVal → Nat
  | .raw s => s.length
  | .multipart parts =>
      parts.foldl
        (fun n p => n + (match p with
          | .field k v => k.length + v.length + 64
          | .file k c => k.length + c.length + 64)) 0

def formContentType : String := "application/x-www-form-urlencoded"

/-- Content type produced by `multipart.Writer.FormDataContentType`; the
random boundary is a fixed string in this deterministic model. -/
def multipartContentType : String := "multipart/form-data; boundary=model-boundary"

/-! ### The result target type

The caller-supplied result/error targets of this repository's callers are
two-string-field records (`AuthSuccess` / `AuthError` in the tests); the
model fixes that shape. -/

structure AuthSuccess where
  id : String
  message : String
  deriving Repr, DecidableEq

/-- Go `reflect.New` on the registered error type yields the zero value. -/
def zeroAuth : AuthSuccess := ⟨"", ""⟩

/-- A response body as seen by the decoder: either bytes that parse into
the target shape (carrying the parsed value), or bytes that do not
(carrying the raw text). -/
inductive JBody where
  | wellFormed (v : AuthSuccess)
  | malformed (raw : String)
  deriving Repr, DecidableEq

/-- Modelled from the spec (util.go is not under src/): `Unmarshal`
deserializes response bytes into the target, dispatching on the
content type; it succeeds exactly when the body matches the target's
shape. -/
def Unmarshal (ct : String) (b : JBody) : Except String AuthSuccess :=
  match b with
  | .wellFormed v => .ok v
  | .malformed _ =>
      if IsJSONType ct then .error "invalid character looking for beginning of object key string"
      else .error "XML syntax error"

/-! ### Client, Request, Response -/

/-- A request URL, pre-parsed: the part before the query string, an
absolute-URL flag (Go: `url.URL.IsAbs`, i.e. the string carries a scheme),
and the query parameters parsed from the string. -/
structure URLModel where
  base : String
  isAbs : Bool
  query : List (String × String)
  deriving Repr, DecidableEq

structure Client where
  hostURL : String
  header : List (String × String)
  queryParam : List (String × String)
  formData : List (String × String)
  setContentLength : Bool
  /-- whether `Client.Error` holds a registered default error shape. -/
  errorType : Bool
  deriving Repr, DecidableEq

structure Request where
  url : URLModel
  method : String
  header : List (String × String)
  queryParam : List (String × String)
  formData : List (String × String)
  body : Option BodyVal
  isMultiPart : Bool
  isFormData : Bool
  setContentLength : Bool
  bodyBuf : Option BufVal
  result : Option AuthSuccess
  error : Option AuthSuccess
  deriving Repr, DecidableEq

structure Response where
  statusCode : Nat
  header : List (String × String)
  body : JBody
  request : Request
  deriving Repr, DecidableEq

def emptyClient : Client :=
  { hostURL := "", header := [], queryParam := [], formData := []
    setContentLength := false, errorType := false }

def emptyRequest : Request :=
  { url := { base := "", isAbs := false, query := [] }
    method := MethodGet, header := [], queryParam := [], formData := []
    body := none, isMultiPart := false, isFormData := false
    setContentLength := false, bodyBuf := none, result := none, error := none }

/-- Outcome of a middleware that mutates the request: normal return with
the updated request, an error return (with the request as mutated so far),
or a run-time nil-pointer dereference. -/
inductive GoResult (α : Type) where
  | ok (a : α)
  | err (a : α) (msg : String)
  | nilPanic
  deriving Repr, DecidableEq

/-! ### Request middlewares (middleware.go) -/

/-- Go `url.Values.Encode` re-encodes the query sorted by key; escaping is the
identity in this model (no caller uses characters that need escaping). -/
def encodeValues (l : List (String × String)) : List (String × String) :=
  l.mergeSort (fun a b => a.1 ≤ b.1)

/-- middleware.go `parseRequestURL`: resolve a relative URL against the
client's host URL, then merge query parameters — client defaults applied
with `Set` first, then request-level parameters with `Set`. The Go
function's only failure mode is `url.Parse`, which the pre-parsed
`URLModel` has already passed, so no error case remains. -/
def parseRequestURL (c : Client) (r : Request) : Request :=
  let base :=
    if r.url.isAbs then r.url.base
    else if goStartsWith r.url.base "/" then c.hostURL ++ r.url.base
    else c.hostURL ++ "/" ++ r.url.base
  let query := setAll (setAll r.url.query c.queryParam) r.queryParam
  { r with url := { base := base, isAbs := true, query := encodeValues query } }

/-- middleware.go `parseRequestHeader`: build a fresh header, `Set` every
client default then every request-level entry, inject the default agent
string (under the agent key when none is set, under "X-User-Agent"
otherwise), and default an absent accept header to the content type. -/
def parseRequestHeader (c : Client) (r : Request) : Request :=
  let hdr := setAll (setAll [] c.header) r.header
  let hdr :=
    if IsStringEmpty (getKV hdr hdrUserAgentKey) then
      setKV hdr hdrUserAgentKey hdrUserAgentValue
    else
      setKV hdr ("X-" ++ hdrUserAgentKey) hdrUserAgentValue
  let hdr :=
    if IsStringEmpty (getKV hdr hdrAcceptKey) && !IsStringEmpty (getKV hdr hdrContentTypeKey) then
      setKV hdr hdrAcceptKey (getKV hdr hdrContentTypeKey)
    else hdr
  { r with header := hdr }

/-- Go `url.Values.Encode` for the form body: sorted `k=v` pairs joined by `&`
(escaping is the identity in this model). -/
def encodeForm (l : List (String × String)) : String :=
  String.intercalate "&" ((encodeValues l).map (fun p => p.1 ++ "=" ++ p.2))

/-- The `CL:` label of middleware.go `parseRequestBody`: when the
content-length flag is enabled on the client or the request, set the
content-length header to `r.bodyBuf.Len()` — a nil-pointer dereference
when no body buffer was produced. -/
def contentLengthStep (c : Client) (r : Request) : GoResult Request :=
  if c.setContentLength || r.setContentLength then
    match r.bodyBuf with
    | none => .nilPanic
    | some b => .ok { r with header := setKV r.header hdrContentLengthKey (toString (bufLen b)) }
  else .ok r

/-- The multipart branch's first loop: every client default form field is
written as a value part (`w.WriteField`). -/
def writeClientParts (form : List (String × String)) : List Part :=
  form.map (fun p => Part.field p.1 p.2)

/-- Modelled from the spec (addFile of util.go is not under src/): open the
file at `path` in the ambient filesystem `fs` and stream it as a file part
under `name`; fails when the file cannot be read. -/
def addFile (fs : List (String × String)) (name path : String) : Except String Part :=
  match lookupKV fs path with
  | some content => .ok (Part.file name content)
  | none => .error ("open " ++ path ++ ": no such file or directory")

/-- The multipart branch's second loop: request form fields are written in
order; a "@"-prefixed key is a file attachment, anything else a value
part. On a file error the loop stops with the parts written so far. -/
def writeRequestParts (fs : List (String × String)) :
    List (String × String) → List Part → List Part × Option String
  | [], acc => (acc, none)
  | p :: rest, acc =>
    if goStartsWith p.1 "@" then
      match addFile fs (goDropOne p.1) p.2 with
      | .ok part => writeRequestParts fs rest (acc ++ [part])
      | .error e => (acc, some e)
    else
      writeRequestParts fs rest (acc ++ [Part.field p.1 p.2])

/-- The key-by-key merge of the URL-encoded form branch: a fresh
`url.Values`, client fields `Set` first, then request fields. -/
def formMerge (c : Client) (r : Request) : List (String × String) :=
  setAll (setAll [] c.formData) r.formData

/-- middleware.go `parseRequestBody`, with the ambient filesystem `fs`
passed explicitly for the file attachments. Branches in source order:
multipart (unless the verb is PATCH), URL-encoded form data, the raw body
value with its content-type dispatch, and for verbs that carry no body the
content-type strip; all paths fall through to `contentLengthStep`
(the `goto CL` in the source) except error returns. -/
def parseRequestBody (fs : List (String × String)) (c : Client) (r : Request) :
    GoResult Request :=
  if isPayloadSupported r.method then
    if r.isMultiPart && !(r.method == MethodPatch) then
      match writeRequestParts fs r.formData (writeClientParts c.formData) with
      | (parts, some e) => .err { r with bodyBuf := some (.multipart parts) } e
      | (parts, none) =>
          contentLengthStep c
            { r with bodyBuf := some (.multipart parts)
                     header := setKV r.header hdrContentTypeKey multipartContentType }
    else if c.formData.length > 0 || r.formData.length > 0 then
      contentLengthStep c
        { r with bodyBuf := some (.raw (encodeForm (formMerge c r)))
                 header := setKV r.header hdrContentTypeKey formContentType
                 isFormData := true }
    else
      match r.body with
      | some bv =>
          let ct0 := getKV r.header hdrContentTypeKey
          let ct := if IsStringEmpty ct0 then DetectContentType bv else ct0
          let hdr := if IsStringEmpty ct0 then setKV r.header hdrContentTypeKey ct else r.header
          let bodyBytes : Option String :=
            if IsJSONType ct && (getBaseKind bv == .struct || getBaseKind bv == .map) then
              some (jsonMarshal bv)
            else if IsXMLType ct && getBaseKind bv == .struct then
              some (xmlMarshal bv)
            else
              match bv with
              | .strVal s => some s
              | .bytesVal b => some b
              | _ => none
          match bodyBytes with
          | none => .err { r with header := hdr } "Unsupported 'Body' type/value"
          | some bytes =>
              contentLengthStep c { r with header := hdr, bodyBuf := some (.raw bytes) }
      | none => contentLengthStep c r
  else
    contentLengthStep c { r with header := r.header.filter (fun p => p.1 != hdrContentTypeKey) }

/-! ### Response middleware (middleware.go) -/

/-- The "Considered as Result" block: a 2xx body is deserialized into the
result target when the caller supplied one. -/
def parseResultStep (ct : String) (res : Response) : Response × Option String :=
  if res.statusCode > 199 && res.statusCode < 300 then
    match res.request.result with
    | some _ =>
        match Unmarshal ct res.body with
        | .ok v => ({ res with request := { res.request with result := some v } }, none)
        | .error e => (res, some e)
    | none => (res, none)
  else (res, none)

/-- The "Considered as Error" block: above 399, resolve the error target
(per-call target first, else a fresh instance of the client's registered
error shape) and deserialize into it; `st` carries the state and error of
the result block. -/
def parseErrorStep (c : Client) (ct : String) (st : Response × Option String) :
    Response × Option String :=
  let res1 := st.1
  if res1.statusCode > 399 then
    let res2 :=
      if res1.request.error.isNone && c.errorType then
        { res1 with request := { res1.request with error := some zeroAuth } }
      else res1
    match res2.request.error with
    | some _ =>
        match Unmarshal ct res2.body with
        | .ok v => ({ res2 with request := { res2.request with error := some v } }, none)
        | .error e => (res2, some e)
    | none => (res2, st.2)
  else st

/-- middleware.go `parseResponseBody`: only JSON or XML content types are
interpreted; the result block runs first, then the error block, sharing
the single `err` variable of the source. -/
def parseResponseBody (c : Client) (res : Response) : Response × Option String :=
  let ct := getKV res.header hdrContentTypeKey
  if IsJSONType ct || IsXMLType ct then
    parseErrorStep c ct (parseResultStep ct res)
  else (res, none)

/-! ### Call surface and redirect policy (request.go / redirect.go,
not under src/; modelled from the spec) -/

/-- Modelled from the spec (request.go is not under src/): `SetFile`
attaches a file as a "@"-prefixed form field whose value is the file's
path, and flags the request as multipart. -/
def SetFile (r : Request) (param path : String) : Request :=
  { r with formData := setKV r.formData ("@" ++ param) path, isMultiPart := true }

/-- Modelled from the spec (request.go is not under src/): issuing a call
rejects multipart content on the body-less verbs GET and DELETE with an
error naming the verb, before the request reaches the transport `send`. -/
def Execute (send : Request → Except String Response) (r : Request) (method : String) :
    Except String Response :=
  if r.isMultiPart && (method == MethodGet || method == MethodDelete) then
    .error ("Multipart content is not allowed in HTTP verb [" ++ method ++ "]")
  else send { r with method := method }

/-- A redirect checker: given the redirect hops already followed (their
paths, oldest first) and the proposed next hop's path, returns an error to
veto the hop. -/
def RedirectPolicy : Type := List String → String → Option String

/-- The error text of the Flexible policy, citing the offending hop. -/
def stoppedAfterMsg (maxHops : Nat) (next : String) : String :=
  "Get " ++ next ++ ": Stopped after " ++ toString maxHops ++ " redirects"

/-- Modelled from the spec (redirect.go is not under src/):
`FlexibleRedirectPolicy maxHops` allows following up to `maxHops`
redirects; beyond that it rejects with a "stopped after N redirects"
error citing the offending hop's path. -/
def FlexibleRedirectPolicy (maxHops : Nat) : RedirectPolicy :=
  fun followed next =>
    if maxHops ≤ followed.length then some (stoppedAfterMsg maxHops next) else none

/-- Modelled from the spec (the transport's redirect loop): follow a chain
of proposed redirect targets, consulting the policy before each hop;
returns the hops actually followed and the terminal error, if any. -/
def followRedirects (policy : RedirectPolicy) :
    List String → List String → List String × Option String
  | followed, [] => (followed, none)
  | followed, p :: rest =>
    match policy followed p with
    | some e => (followed, some e)
    | none => followRedirects policy (followed ++ [p]) rest

/-- Request form fields as multipart parts: "@"-prefixed keys become file
parts with the attached file's content, other keys value parts.  This is
what the multipart branch's second loop writes when no file is missing. -/
def requestParts (fs : List (String × String)) (form : List (String × String)) : List Part :=
  form.map (fun p =>
    if goStartsWith p.1 "@" then Part.file (goDropOne p.1) ((lookupKV fs p.2).getD "")
    else Part.field p.1 p.2)

/-! ### Lemmas on the key-value map model -/

@[simp]
theorem lookupKV_nil (k : String) : lookupKV [] k = none := rfl

theorem lookupKV_cons (p : String × String) (l : List (String × String)) (k : String) :
    lookupKV (p :: l) k = if p.1 == k then some p.2 else lookupKV l k := by
  by_cases h : p.1 == k <;> simp [lookupKV, List.find?_cons, h]

theorem lookupKV_setKV_self (l : List (String × String)) (k v : String) :
    lookupKV (setKV l k v) k = some v := by
  induction l with
  | nil => simp [setKV, lookupKV_cons]
  | cons p rest ih =>
      by_cases h : p.1 == k
      · simp [setKV, h, lookupKV_cons]
      · simp [setKV, h, lookupKV_cons, ih]

theorem lookupKV_setKV_ne (l : List (String × String)) (k' v k : String) (h : k' ≠ k) :
    lookupKV (setKV l k' v) k = lookupKV l k := by
  induction l with
  | nil => simp [setKV, lookupKV_cons, h]
  | cons p rest ih =>
      by_cases hp : p.1 == k'
      · have hpk : (p.1 == k) = false := by
          have : p.1 = k' := by simpa using hp
          simp [this, h]
        simp [setKV, hp, lookupKV_cons, hpk, h]
      · simp [setKV, hp, lookupKV_cons, ih]

theorem keys_setKV (l : List (String × String)) (k v : String) :
    (setKV l k v).map Prod.fst
      = if k ∈ l.map Prod.fst then l.map Prod.fst else l.map Prod.fst ++ [k] := by
  induction l with
  | nil => simp [setKV]
  | cons p rest ih =>
      by_cases hp : p.1 == k
      · have : p.1 = k := by simpa using hp
        simp [setKV, hp, this]
      · have hne : ¬ k = p.1 := by
          intro hkp; exact hp (by simp [hkp])
        by_cases hmem : k ∈ rest.map Prod.fst
        · simp [setKV, hp, ih, hmem, hne]
        · simp [setKV, hp, ih, hmem, hne]

theorem keysDistinct_setKV (l : List (String × String)) (k v : String)
    (hd : KeysDistinct l) : KeysDistinct (setKV l k v) := by
  unfold KeysDistinct at *
  rw [keys_setKV]
  by_cases hmem : k ∈ l.map Prod.fst
  · simpa [hmem]
  · simpa [hmem, List.nodup_append] using hd

theorem lookupKV_setAll_of_not_mem (dst src : List (String × String)) (k : String)
    (h : k ∉ src.map Prod.fst) :
    lookupKV (setAll dst src) k = lookupKV dst k := by
  induction src generalizing dst with
  | nil => simp [setAll]
  | cons p rest ih =>
      have hpk : p.1 ≠ k := by
        intro he; exact h (by simp [he])
      have hrest : k ∉ rest.map Prod.fst := by
        intro hm; exact h (by simp [hm])
      show lookupKV (setAll (setKV dst p.1 p.2) rest) k = _
      rw [ih _ hrest, lookupKV_setKV_ne _ _ _ _ hpk]

theorem lookupKV_setAll_of_lookup (src : List (String × String)) (k w : String) :
    KeysDistinct src → lookupKV src k = some w →
    ∀ dst, lookupKV (setAll dst src) k = some w := by
  induction src with
  | nil => intro _ h; simp at h
  | cons p rest ih =>
      intro hd h dst
      rw [lookupKV_cons] at h
      have hrest : KeysDistinct rest := by
        unfold KeysDistinct at hd ⊢
        simp only [List.map_cons, List.nodup_cons] at hd
        exact hd.2
      by_cases hp : p.1 == k
      · have hpk : p.1 = k := by simpa using hp
        have hw : p.2 = w := by simpa [hp] using h
        have hk : k ∉ rest.map Prod.fst := by
          unfold KeysDistinct at hd
          simp only [List.map_cons, List.nodup_cons] at hd
          exact hpk ▸ hd.1
        show lookupKV (setAll (setKV dst p.1 p.2) rest) k = _
        rw [lookupKV_setAll_of_not_mem _ _ _ hk, hpk, lookupKV_setKV_self, hw]
      · have h' : lookupKV rest k = some w := by simpa [hp] using h
        exact ih hrest h' (setKV dst p.1 p.2)

theorem keysDistinct_setAll (dst src : List (String × String))
    (hd : KeysDistinct dst) : KeysDistinct (setAll dst src) := by
  induction src generalizing dst with
  | nil => simpa [setAll]
  | cons p rest ih =>
      show KeysDistinct (setAll (setKV dst p.1 p.2) rest)
      exact ih _ (keysDistinct_setKV _ _ _ hd)

theorem mem_of_lookupKV (l : List (String × String)) (k w : String)
    (h : lookupKV l k = some w) : (k, w) ∈ l := by
  unfold lookupKV at h
  obtain ⟨p, hfind, hmap⟩ := Option.map_eq_some'.mp h
  have hmem := List.mem_of_find?_eq_some hfind
  have hpred := List.find?_some hfind
  have hk : p.1 = k := by simpa using hpred
  have : p = (k, w) := by
    cases p; simp_all
  simpa [this] using hmem

theorem lookupKV_of_mem (l : List (String × String)) (k w : String)
    (hd : KeysDistinct l) (h : (k, w) ∈ l) : lookupKV l k = some w := by
  induction l with
  | nil => simp at h
  | cons p rest ih =>
      rw [lookupKV_cons]
      rcases List.mem_cons.mp h with he | hm
      · simp [← he]
      · have hk : k ∈ rest.map Prod.fst := by
          exact List.mem_map.mpr ⟨(k, w), hm, rfl⟩
        have hp : p.1 ≠ k := by
          intro he
          unfold KeysDistinct at hd
          simp only [List.map_cons, List.nodup_cons] at hd
          exact hd.1 (he ▸ hk)
        have hrest : KeysDistinct rest := by
          unfold KeysDistinct at hd ⊢
          simp only [List.map_cons, List.nodup_cons] at hd
          exact hd.2
        simp [hp, ih hrest hm]

theorem lookupKV_eq_none_iff (l : List (String × String)) (k : String) :
    lookupKV l k = none ↔ k ∉ l.map Prod.fst := by
  constructor
  · intro h hmem
    obtain ⟨p, hp, hk⟩ := List.mem_map.mp hmem
    unfold lookupKV at h
    rw [Option.map_eq_none'] at h
    rw [List.find?_eq_none] at h
    exact absurd (by simp [hk]) (h p hp)
  · intro h
    unfold lookupKV
    rw [Option.map_eq_none', List.find?_eq_none]
    intro p hp
    simp only [beq_iff_eq]
    intro he
    exact h (List.mem_map.mpr ⟨p, hp, he⟩)

theorem keysDistinct_perm (l l' : List (String × String))
    (hperm : l.Perm l') (hd : KeysDistinct l) : KeysDistinct l' :=
  ((hperm.map Prod.fst).nodup_iff).mp hd

theorem lookupKV_perm (l l' : List (String × String)) (k : String)
    (hperm : l.Perm l') (hd : KeysDistinct l) :
    lookupKV l' k = lookupKV l k := by
  cases hl : lookupKV l k with
  | some w =>
      have hmem : (k, w) ∈ l' := hperm.mem_iff.mp (mem_of_lookupKV _ _ _ hl)
      exact lookupKV_of_mem _ _ _ (keysDistinct_perm _ _ hperm hd) hmem
  | none =>
      rw [lookupKV_eq_none_iff] at hl ⊢
      intro hmem
      exact hl (((hperm.map Prod.fst).mem_iff).mpr hmem)

theorem lookupKV_encodeValues (l : List (String × String)) (k : String)
    (hd : KeysDistinct l) : lookupKV (encodeValues l) k = lookupKV l k := by
  unfold encodeValues
  exact lookupKV_perm l _ k (List.mergeSort_perm l _).symm hd

/-! ### Claim C6: multipart on GET/DELETE fails before any transport I/O -/

/-- C6: a request that attached a file through `SetFile`, issued with the
GET or DELETE verb, fails with the MultipartNotAllowed error naming the
offending verb — for every transport `send` whatsoever, so no network I/O
is attempted and reachability is irrelevant. -/
theorem C6_multipart_rejected_on_get_delete
    (send : Request → Except String Response) (r : Request) (param path m : String)
    (hm : m = MethodGet ∨ m = MethodDelete) :
    Execute send (SetFile r param path) m
      = .error ("Multipart content is not allowed in HTTP verb [" ++ m ++ "]") := by
  rcases hm with h | h <;> subst h <;>
    simp [Execute, SetFile, MethodGet, MethodDelete]

/-- Witness for C6 at a concrete input: an unreachable transport, a file
attachment, the GET verb. -/
theorem C6_witness :
    (MethodGet = MethodGet ∨ MethodGet = MethodDelete)
    ∧ Execute (fun _ => Except.error "dial tcp: connection refused")
        (SetFile emptyRequest "profile_img" "/test-data/test-img.png") MethodGet
      = .error ("Multipart content is not allowed in HTTP verb [" ++ MethodGet ++ "]") :=
  ⟨Or.inl rfl,
   C6_multipart_rejected_on_get_delete (fun _ => Except.error "dial tcp: connection refused")
     emptyRequest "profile_img" "/test-data/test-img.png" MethodGet (Or.inl rfl)⟩

/-! ### Claim C7: the Flexible redirect policy -/

theorem followRedirects_flexible (n : Nat) :
    ∀ (chain followed : List String), followed.length ≤ n →
    n - followed.length < chain.length →
    followRedirects (FlexibleRedirectPolicy n) followed chain
      = (followed ++ chain.take (n - followed.length),
         some (stoppedAfterMsg n (chain.getD (n - followed.length) ""))) := by
  intro chain
  induction chain with
  | nil => intro followed _ h; simp at h
  | cons p rest ih =>
      intro followed hle h
      by_cases hn : n ≤ followed.length
      · have h0 : n - followed.length = 0 := by omega
        simp [followRedirects, FlexibleRedirectPolicy, hn, h0]
      · have hpol : FlexibleRedirectPolicy n followed p = none := by
          simp only [FlexibleRedirectPolicy, ite_eq_right_iff]
          intro hc; omega
        simp only [followRedirects, hpol]
        have hle' : (followed ++ [p]).length ≤ n := by
          simp only [List.length_append, List.length_cons, List.length_nil]; omega
        have h' : n - (followed ++ [p]).length < rest.length := by
          simp only [List.length_append, List.length_cons, List.length_nil]
          simp only [List.length_cons] at h; omega
        rw [ih (followed ++ [p]) hle' h']
        have hm : n - followed.length = (n - (followed ++ [p]).length) + 1 := by
          simp only [List.length_append, List.length_cons, List.length_nil]; omega
        rw [hm]
        simp [List.take_succ_cons, List.getD_cons_succ, List.append_assoc]

/-- C7: a Flexible policy with `maxHops = N`, run against a redirect chain
longer than N hops, follows exactly the first N hops and then fails with
the "stopped after N redirects" error citing the path of hop N+1. -/
theorem C7_flexible_redirect_stops (n : Nat) (chain : List String)
    (h : n < chain.length) :
    followRedirects (FlexibleRedirectPolicy n) [] chain
      = (chain.take n, some (stoppedAfterMsg n (chain.getD n ""))) := by
  have := followRedirects_flexible n chain [] (by simp) (by simpa using h)
  simpa using this

/-- Witness for C7: maxHops = 2 against a 3-hop chain. -/
theorem C7_witness :
    2 < (["/redirect-2", "/redirect-3", "/redirect-4"] : List String).length
    ∧ followRedirects (FlexibleRedirectPolicy 2) [] ["/redirect-2", "/redirect-3", "/redirect-4"]
      = ((["/redirect-2", "/redirect-3", "/redirect-4"] : List String).take 2,
         some (stoppedAfterMsg 2 (["/redirect-2", "/redirect-3", "/redirect-4"].getD 2 ""))) :=
  ⟨by decide,
   C7_flexible_redirect_stops 2 ["/redirect-2", "/redirect-3", "/redirect-4"] (by decide)⟩

/-! ### Claim C8: 3xx and unrecognized content types pass through -/

/-- C8: for a response with status code in 300–399, or one whose content
type is neither JSON nor XML, the body-parse middleware changes nothing —
targets untouched, body passed through, and no error. -/
theorem C8_passthrough (c : Client) (res : Response)
    (h : (300 ≤ res.statusCode ∧ res.statusCode ≤ 399)
       ∨ (IsJSONType (getKV res.header hdrContentTypeKey) = false
          ∧ IsXMLType (getKV res.header hdrContentTypeKey) = false)) :
    parseResponseBody c res = (res, none) := by
  unfold parseResponseBody parseErrorStep parseResultStep
  rcases h with ⟨h1, h2⟩ | ⟨h1, h2⟩
  · have hA : (res.statusCode > 199 && decide (res.statusCode < 300)) = false := by
      simp only [Bool.and_eq_false_iff, decide_eq_false_iff_not, not_lt]
      right; omega
    have hB : ¬ (res.statusCode > 399) := by omega
    by_cases hct : (IsJSONType (getKV res.header hdrContentTypeKey)
        || IsXMLType (getKV res.header hdrContentTypeKey)) = true
    · simp [hct, hA, hB]
    · simp [hct]
  · simp [h1, h2]

/-- Witness for C8: a 302 with a JSON content type. -/
theorem C8_witness :
    ((300 ≤ 302 ∧ 302 ≤ 399)
      ∨ (IsJSONType (getKV ([(hdrContentTypeKey, "application/json")]) hdrContentTypeKey) = false
         ∧ IsXMLType (getKV ([(hdrContentTypeKey, "application/json")]) hdrContentTypeKey) = false))
    ∧ parseResponseBody emptyClient
        { statusCode := 302, header := [(hdrContentTypeKey, "application/json")],
          body := .malformed "redirecting", request := emptyRequest }
      = ({ statusCode := 302, header := [(hdrContentTypeKey, "application/json")],
           body := .malformed "redirecting", request := emptyRequest }, none) :=
  ⟨Or.inl (by omega),
   C8_passthrough emptyClient
     { statusCode := 302, header := [(hdrContentTypeKey, "application/json")],
       body := .malformed "redirecting", request := emptyRequest }
     (Or.inl (by decide))⟩

/-! ### Claim C9: the content-length step dereferences a nil body buffer -/

/-- C9: with the content-length flag enabled on the client or the request,
any input on which body preparation produces no body buffer — a verb that
carries no body, or a payload verb with a nil body, no form fields and no
multipart — drives the `CL:` step of parseRequestBody into a nil-pointer
dereference of `r.bodyBuf`; the middleware is not total there. -/
theorem C9_content_length_nil_deref (fs : List (String × String)) (c : Client) (r : Request)
    (hflag : (c.setContentLength || r.setContentLength) = true)
    (hbuf : r.bodyBuf = none)
    (hcase : isPayloadSupported r.method = false
           ∨ (r.isMultiPart = false ∧ c.formData = [] ∧ r.formData = [] ∧ r.body = none)) :
    parseRequestBody fs c r = .nilPanic := by
  unfold parseRequestBody
  rcases hcase with h | ⟨h1, h2, h3, h4⟩
  · simp [h, contentLengthStep, hflag, hbuf]
  · by_cases hp : isPayloadSupported r.method = true
    · simp [hp, h1, h2, h3, h4, contentLengthStep, hflag, hbuf]
    · simp [hp, contentLengthStep, hflag, hbuf]

/-- Witness for C9: content length enabled on the client, a GET request
with no body buffer. -/
theorem C9_witness :
    ((({ emptyClient with setContentLength := true } : Client).setContentLength
        || emptyRequest.setContentLength) = true)
    ∧ parseRequestBody [] { emptyClient with setContentLength := true } emptyRequest
      = .nilPanic :=
  ⟨by decide,
   C9_content_length_nil_deref [] { emptyClient with setContentLength := true } emptyRequest
     (by decide) rfl (Or.inl (by decide))⟩

/-! ### Claim C2: 2xx bodies are deserialized into the result target -/

/-- C2: for a JSON/XML response with status in 200–299 whose caller
supplied a result target, the body-parse step deserializes the body into
the result target; a body matching the target's shape populates it with
the decoded value and the middleware returns no error. -/
theorem C2_result_populated_on_success (c : Client) (res : Response) (t0 v : AuthSuccess)
    (hct : (IsJSONType (getKV res.header hdrContentTypeKey)
          || IsXMLType (getKV res.header hdrContentTypeKey)) = true)
    (hst : 200 ≤ res.statusCode ∧ res.statusCode ≤ 299)
    (hres : res.request.result = some t0)
    (hbody : res.body = .wellFormed v) :
    parseResponseBody c res
      = ({ res with request := { res.request with result := some v } }, none) := by
  unfold parseResponseBody parseErrorStep parseResultStep
  have hA : (res.statusCode > 199 && decide (res.statusCode < 300)) = true := by
    simp only [Bool.and_eq_true, decide_eq_true_eq]
    constructor
    · simp only [gt_iff_lt, decide_eq_true_eq]; omega
    · omega
  have hB : ¬ (res.statusCode > 399) := by omega
  simp [hct, hA, hB, hres, hbody, Unmarshal]

/-- Witness for C2: a 200 JSON response whose body decodes into the
two-field result target. -/
theorem C2_witness :
    ((IsJSONType (getKV [(hdrContentTypeKey, "application/json")] hdrContentTypeKey)
       || IsXMLType (getKV [(hdrContentTypeKey, "application/json")] hdrContentTypeKey)) = true)
    ∧ parseResponseBody emptyClient
        { statusCode := 200, header := [(hdrContentTypeKey, "application/json")],
          body := .wellFormed ⟨"success", "login successful"⟩,
          request := { emptyRequest with result := some zeroAuth } }
      = ({ statusCode := 200, header := [(hdrContentTypeKey, "application/json")],
           body := .wellFormed ⟨"success", "login successful"⟩,
           request := { emptyRequest with result := some ⟨"success", "login successful"⟩ } },
         none) := by
  constructor
  · decide
  · have := C2_result_populated_on_success emptyClient
      { statusCode := 200, header := [(hdrContentTypeKey, "application/json")],
        body := .wellFormed ⟨"success", "login successful"⟩,
        request := { emptyRequest with result := some zeroAuth } }
      zeroAuth ⟨"success", "login successful"⟩
      (by decide) (by decide) rfl rfl
    simpa using this

/-! ### Claim C3: error-target resolution above 399 -/

/-- C3: for a JSON/XML response with status above 399 the error target is
resolved with per-call precedence — a per-call error target is used as-is
(whatever the client's registered shape is), otherwise a fresh instance of
the client's registered error shape is created and used, otherwise no
deserialization happens; a body matching the chosen target's shape
populates it and the middleware returns no error. -/
theorem C3_error_target_resolution (c : Client) (res : Response) (v : AuthSuccess)
    (hct : (IsJSONType (getKV res.header hdrContentTypeKey)
          || IsXMLType (getKV res.header hdrContentTypeKey)) = true)
    (hst : 399 < res.statusCode)
    (hbody : res.body = .wellFormed v) :
    (∀ e0, res.request.error = some e0 →
       parseResponseBody c res
         = ({ res with request := { res.request with error := some v } }, none))
    ∧ (res.request.error = none → c.errorType = true →
       parseResponseBody c res
         = ({ res with request := { res.request with error := some v } }, none))
    ∧ (res.request.error = none → c.errorType = false →
       parseResponseBody c res = (res, none)) := by
  have hA : (res.statusCode > 199 && decide (res.statusCode < 300)) = false := by
    simp only [Bool.and_eq_false_iff, decide_eq_false_iff_not, not_lt]
    right; omega
  have hB : res.statusCode > 399 := hst
  refine ⟨?_, ?_, ?_⟩
  · intro e0 he
    unfold parseResponseBody parseErrorStep parseResultStep
    simp [hct, hA, hB, he, hbody, Unmarshal]
  · intro he hcl
    unfold parseResponseBody parseErrorStep parseResultStep
    simp [hct, hA, hB, he, hcl, hbody, Unmarshal]
  · intro he hcl
    unfold parseResponseBody parseErrorStep parseResultStep
    simp [hct, hA, hB, he, hcl]

/-- Witness for C3: a 401 JSON response, no per-call target, a registered
client error shape. -/
theorem C3_witness :
    ((IsJSONType (getKV [(hdrContentTypeKey, "application/json")] hdrContentTypeKey)
       || IsXMLType (getKV [(hdrContentTypeKey, "application/json")] hdrContentTypeKey)) = true)
    ∧ parseResponseBody { emptyClient with errorType := true }
        { statusCode := 401, header := [(hdrContentTypeKey, "application/json")],
          body := .wellFormed ⟨"unauthorized", "bad credentials"⟩, request := emptyRequest }
      = ({ statusCode := 401, header := [(hdrContentTypeKey, "application/json")],
           body := .wellFormed ⟨"unauthorized", "bad credentials"⟩,
           request := { emptyRequest with error := some ⟨"unauthorized", "bad credentials"⟩ } },
         none) := by
  constructor
  · decide
  · have := (C3_error_target_resolution { emptyClient with errorType := true }
      { statusCode := 401, header := [(hdrContentTypeKey, "application/json")],
        body := .wellFormed ⟨"unauthorized", "bad credentials"⟩, request := emptyRequest }
      ⟨"unauthorized", "bad credentials"⟩
      (by decide) (by decide) rfl).2.1 rfl rfl
    simpa using this

/-! ### Claim C4: a decode failure is the call's error but the Response
survives intact -/

/-- C4: when the body fails to deserialize into the chosen target, the
body-parse middleware returns exactly that deserialization failure as its
error, while the response keeps its status code, headers and raw body
bytes untouched — the failure is non-fatal to the Response. -/
theorem C4_decode_failure_nonfatal (c : Client) (res : Response) (raw : String)
    (hct : (IsJSONType (getKV res.header hdrContentTypeKey)
          || IsXMLType (getKV res.header hdrContentTypeKey)) = true)
    (hbody : res.body = .malformed raw)
    (htarget : (200 ≤ res.statusCode ∧ res.statusCode ≤ 299 ∧ res.request.result.isSome)
             ∨ (399 < res.statusCode ∧ (res.request.error.isSome ∨ c.errorType = true))) :
    (∃ e, Unmarshal (getKV res.header hdrContentTypeKey) res.body = .error e
        ∧ (parseResponseBody c res).2 = some e)
    ∧ (parseResponseBody c res).1.statusCode = res.statusCode
    ∧ (parseResponseBody c res).1.header = res.header
    ∧ (parseResponseBody c res).1.body = res.body := by
  have hum : ∃ e, Unmarshal (getKV res.header hdrContentTypeKey) res.body = .error e := by
    rw [hbody]; unfold Unmarshal
    by_cases hj : IsJSONType (getKV res.header hdrContentTypeKey) = true <;> simp [hj]
  obtain ⟨e, he⟩ := hum
  rcases htarget with ⟨h1, h2, h3⟩ | ⟨h1, h2⟩
  · obtain ⟨t0, ht⟩ := Option.isSome_iff_exists.mp h3
    have hA : (res.statusCode > 199 && decide (res.statusCode < 300)) = true := by
      simp only [Bool.and_eq_true, decide_eq_true_eq]
      constructor
      · simp only [gt_iff_lt, decide_eq_true_eq]; omega
      · omega
    have hB : ¬ (res.statusCode > 399) := by omega
    have : parseResponseBody c res = (res, some e) := by
      unfold parseResponseBody parseErrorStep parseResultStep
      simp [hct, hA, hB, ht, he]
    rw [this]
    exact ⟨⟨e, he, rfl⟩, rfl, rfl, rfl⟩
  · have hA : (res.statusCode > 199 && decide (res.statusCode < 300)) = false := by
      simp only [Bool.and_eq_false_iff, decide_eq_false_iff_not, not_lt]
      right; omega
    have hB : res.statusCode > 399 := h1
    rcases h2 with hsome | hcl
    · obtain ⟨e0, ht⟩ := Option.isSome_iff_exists.mp hsome
      have : parseResponseBody c res = (res, some e) := by
        unfold parseResponseBody parseErrorStep parseResultStep
        simp [hct, hA, hB, ht, he]
      rw [this]
      exact ⟨⟨e, he, rfl⟩, rfl, rfl, rfl⟩
    · cases hval : res.request.error with
      | none =>
          have : parseResponseBody c res
              = ({ res with request := { res.request with error := some zeroAuth } }, some e) := by
            unfold parseResponseBody parseErrorStep parseResultStep
            simp [hct, hA, hB, hval, hcl, he]
          rw [this]
          exact ⟨⟨e, he, rfl⟩, rfl, rfl, rfl⟩
      | some e0 =>
          have : parseResponseBody c res = (res, some e) := by
            unfold parseResponseBody parseErrorStep parseResultStep
            simp [hct, hA, hB, hval, he]
          rw [this]
          exact ⟨⟨e, he, rfl⟩, rfl, rfl, rfl⟩

/-- Witness for C4: a 200 JSON response with a malformed body and a result
target; the decode error is surfaced, the response fields survive. -/
theorem C4_witness :
    ((IsJSONType (getKV [(hdrContentTypeKey, "application/json")] hdrContentTypeKey)
       || IsXMLType (getKV [(hdrContentTypeKey, "application/json")] hdrContentTypeKey)) = true)
    ∧ (∃ e, Unmarshal (getKV [(hdrContentTypeKey, "application/json")] hdrContentTypeKey)
          (JBody.malformed "it is not a json response") = .error e
        ∧ (parseResponseBody emptyClient
            { statusCode := 200, header := [(hdrContentTypeKey, "application/json")],
              body := .malformed "it is not a json response",
              request := { emptyRequest with result := some zeroAuth } }).2 = some e)
    ∧ (parseResponseBody emptyClient
        { statusCode := 200, header := [(hdrContentTypeKey, "application/json")],
          body := .malformed "it is not a json response",
          request := { emptyRequest with result := some zeroAuth } }).1.statusCode = 200 := by
  refine ⟨by decide, ?_⟩
  have := C4_decode_failure_nonfatal emptyClient
    { statusCode := 200, header := [(hdrContentTypeKey, "application/json")],
      body := .malformed "it is not a json response",
      request := { emptyRequest with result := some zeroAuth } }
    "it is not a json response"
    (by decide) rfl (Or.inl ⟨by decide, by decide, by decide⟩)
  exact ⟨this.1, this.2.1⟩

/-! ### Claim C5: the raw-body decision table -/

/-- C5: for a payload verb carrying a body value, with no multipart and no
form fields and an explicit content type: a JSON content type with a map
or struct value is JSON-marshalled; an XML content type with a struct
value is XML-marshalled; a string or byte-sequence value is used verbatim;
every other combination fails with the unsupported-body-type error. -/
theorem C5_body_decision_table (fs : List (String × String)) (c : Client) (r : Request)
    (bv : BodyVal)
    (hm : isPayloadSupported r.method = true)
    (hmp : r.isMultiPart = false)
    (hcf : c.formData = []) (hrf : r.formData = [])
    (hb : r.body = some bv)
    (hct : IsStringEmpty (getKV r.header hdrContentTypeKey) = false) :
    (IsJSONType (getKV r.header hdrContentTypeKey) = true →
       (getBaseKind bv = .map ∨ getBaseKind bv = .struct) →
       parseRequestBody fs c r
         = contentLengthStep c { r with bodyBuf := some (.raw (jsonMarshal bv)) })
    ∧ (IsXMLType (getKV r.header hdrContentTypeKey) = true →
       IsJSONType (getKV r.header hdrContentTypeKey) = false →
       getBaseKind bv = .struct →
       parseRequestBody fs c r
         = contentLengthStep c { r with bodyBuf := some (.raw (xmlMarshal bv)) })
    ∧ (∀ s, bv = .strVal s →
       parseRequestBody fs c r = contentLengthStep c { r with bodyBuf := some (.raw s) })
    ∧ (∀ b, bv = .bytesVal b →
       parseRequestBody fs c r = contentLengthStep c { r with bodyBuf := some (.raw b) })
    ∧ ((getBaseKind bv = .map ∧ IsJSONType (getKV r.header hdrContentTypeKey) = false)
       ∨ (getBaseKind bv = .struct ∧ IsJSONType (getKV r.header hdrContentTypeKey) = false
          ∧ IsXMLType (getKV r.header hdrContentTypeKey) = false)
       ∨ bv = .otherVal →
       parseRequestBody fs c r = .err r "Unsupported 'Body' type/value") := by
  obtain ⟨u, m, hd, qp, fd, bd, imp, ifd, scl, bb, rs, er⟩ := r
  dsimp only at hm hmp hcf hrf hb hct ⊢
  subst hmp hrf hb
  refine ⟨?_, ?_, ?_, ?_, ?_⟩
  · intro hj hk
    cases bv with
    | mapVal fields =>
        unfold parseRequestBody
        simp [hm, hcf, hct, hj, getBaseKind]
    | structVal fields =>
        unfold parseRequestBody
        simp [hm, hcf, hct, hj, getBaseKind]
    | strVal s => rcases hk with h | h <;> simp [getBaseKind] at h
    | bytesVal b => rcases hk with h | h <;> simp [getBaseKind] at h
    | otherVal => rcases hk with h | h <;> simp [getBaseKind] at h
  · intro hx hj hk
    cases bv with
    | structVal fields =>
        unfold parseRequestBody
        simp [hm, hcf, hct, hx, hj, getBaseKind]
    | mapVal fields => simp [getBaseKind] at hk
    | strVal s => simp [getBaseKind] at hk
    | bytesVal b => simp [getBaseKind] at hk
    | otherVal => simp [getBaseKind] at hk
  · intro s hs
    subst hs
    unfold parseRequestBody
    simp [hm, hcf, hct, getBaseKind]
  · intro b hbv
    subst hbv
    unfold parseRequestBody
    simp [hm, hcf, hct, getBaseKind]
  · intro hcase
    rcases hcase with ⟨hk, hj⟩ | ⟨hk, hj, hx⟩ | hk
    · cases bv with
      | mapVal fields =>
          unfold parseRequestBody
          simp [hm, hcf, hct, hj, getBaseKind]
      | strVal s => simp [getBaseKind] at hk
      | bytesVal b => simp [getBaseKind] at hk
      | structVal fields => simp [getBaseKind] at hk
      | otherVal => simp [getBaseKind] at hk
    · cases bv with
      | structVal fields =>
          unfold parseRequestBody
          simp [hm, hcf, hct, hj, hx, getBaseKind]
      | strVal s => simp [getBaseKind] at hk
      | bytesVal b => simp [getBaseKind] at hk
      | mapVal fields => simp [getBaseKind] at hk
      | otherVal => simp [getBaseKind] at hk
    · subst hk
      unfold parseRequestBody
      simp [hm, hcf, hct, getBaseKind]

/-- The POST request of the unsupported combination: content type
application/xml with a map body value. -/
def xmlMapRequest : Request :=
  { emptyRequest with method := MethodPost, header := [(hdrContentTypeKey, "application/xml")], body := some (.mapVal [("Username", "testuser"), ("Password", "testpass")]) }

/-- Witness for C5: a POST with content type application/xml and a map
body — the unsupported combination of the decision table. -/
theorem C5_witness :
    isPayloadSupported xmlMapRequest.method = true
    ∧ parseRequestBody [] emptyClient xmlMapRequest
      = .err xmlMapRequest "Unsupported 'Body' type/value" := by
  refine ⟨by decide, ?_⟩
  exact (C5_body_decision_table [] emptyClient xmlMapRequest
    (.mapVal [("Username", "testuser"), ("Password", "testpass")])
    (by decide) rfl rfl rfl rfl (by decide)).2.2.2.2
    (Or.inl ⟨rfl, by decide⟩)

/-! ### Claim C10: multipart keeps both client and request values -/

theorem writeRequestParts_ok (fs : List (String × String)) :
    ∀ (form : List (String × String)) (acc : List Part),
    (∀ p ∈ form, goStartsWith p.1 "@" = true → (lookupKV fs p.2).isSome = true) →
    writeRequestParts fs form acc = (acc ++ requestParts fs form, none) := by
  intro form
  induction form with
  | nil => intro acc _; simp [writeRequestParts, requestParts]
  | cons p rest ih =>
      intro acc hall
      have hrest : ∀ q ∈ rest, goStartsWith q.1 "@" = true → (lookupKV fs q.2).isSome = true :=
        fun q hq => hall q (by simp [hq])
      by_cases hat : goStartsWith p.1 "@" = true
      · have hsome := hall p (by simp) hat
        obtain ⟨content, hcon⟩ := Option.isSome_iff_exists.mp hsome
        simp [writeRequestParts, hat, addFile, hcon, requestParts, ih _ hrest]
      · simp [writeRequestParts, hat, requestParts, ih _ hrest]

theorem contentLengthStep_ok (c : Client) (r : Request) (b : BufVal)
    (hb : r.bodyBuf = some b) :
    ∃ r', contentLengthStep c r = .ok r' ∧ r'.bodyBuf = some b := by
  unfold contentLengthStep
  cases hf : (c.setContentLength || r.setContentLength) with
  | true =>
      refine ⟨{ r with header := setKV r.header hdrContentLengthKey (toString (bufLen b)) },
        ?_, by simp [hb]⟩
      simp [hf, hb]
  | false =>
      refine ⟨r, ?_, hb⟩
      simp [hf]

/-- C10: in the multipart branch a form-field key present in both the
client's and the request's form data produces two separate parts under the
same name — first the client's value, then the request's; unlike the
URL-encoded form branch, whose merge lets the request value replace the
client value key by key. -/
theorem C10_multipart_no_override (fs : List (String × String)) (c : Client) (r : Request)
    (k cv rv : String)
    (hm : isPayloadSupported r.method = true)
    (hnp : (r.method == MethodPatch) = false)
    (hmp : r.isMultiPart = true)
    (hfiles : ∀ p ∈ r.formData, goStartsWith p.1 "@" = true → (lookupKV fs p.2).isSome = true)
    (hc : lookupKV c.formData k = some cv) (hr : lookupKV r.formData k = some rv)
    (hkat : goStartsWith k "@" = false)
    (hrd : KeysDistinct r.formData) :
    (∃ r', parseRequestBody fs c r = .ok r'
        ∧ r'.bodyBuf = some (.multipart (writeClientParts c.formData ++ requestParts fs r.formData))
        ∧ Part.field k cv ∈ writeClientParts c.formData
        ∧ Part.field k rv ∈ requestParts fs r.formData)
    ∧ lookupKV (formMerge c r) k = some rv := by
  constructor
  · have hmem_c : Part.field k cv ∈ writeClientParts c.formData :=
      List.mem_map.mpr ⟨(k, cv), mem_of_lookupKV _ _ _ hc, rfl⟩
    have hmem_r : Part.field k rv ∈ requestParts fs r.formData :=
      List.mem_map.mpr ⟨(k, rv), mem_of_lookupKV _ _ _ hr, by simp [hkat]⟩
    have hwrite := writeRequestParts_ok fs r.formData (writeClientParts c.formData) hfiles
    have hstep : parseRequestBody fs c r
        = contentLengthStep c
            { r with bodyBuf := some (.multipart (writeClientParts c.formData ++ requestParts fs r.formData))
                     header := setKV r.header hdrContentTypeKey multipartContentType } := by
      unfold parseRequestBody
      simp [hm, hmp, hnp, hwrite]
    obtain ⟨r', hr', hbuf⟩ := contentLengthStep_ok c
      { r with bodyBuf := some (.multipart (writeClientParts c.formData ++ requestParts fs r.formData))
               header := setKV r.header hdrContentTypeKey multipartContentType }
      (.multipart (writeClientParts c.formData ++ requestParts fs r.formData)) rfl
    exact ⟨r', by rw [hstep, hr'], hbuf, hmem_c, hmem_r⟩
  · exact lookupKV_setAll_of_lookup r.formData k rv hrd hr (setAll [] c.formData)

/-- Client of the C10 witness: one default form field. -/
def mpClient : Client :=
  { emptyClient with formData := [("first_name", "client-value")] }

/-- Request of the C10 witness: a multipart POST whose form data reuses the
client's field key. -/
def mpRequest : Request :=
  { emptyRequest with method := MethodPost, isMultiPart := true, formData := [("first_name", "request-value")] }

/-- Witness for C10: the key "first_name" set in both the client and the
request form data of a multipart POST. -/
theorem C10_witness :
    lookupKV mpClient.formData "first_name" = some "client-value"
    ∧ ((∃ r', parseRequestBody [] mpClient mpRequest = .ok r'
        ∧ r'.bodyBuf = some (.multipart
            (writeClientParts mpClient.formData ++ requestParts [] mpRequest.formData))
        ∧ Part.field "first_name" "client-value" ∈ writeClientParts mpClient.formData
        ∧ Part.field "first_name" "request-value" ∈ requestParts [] mpRequest.formData)
      ∧ lookupKV (formMerge mpClient mpRequest) "first_name" = some "request-value") := by
  refine ⟨rfl, ?_⟩
  exact C10_multipart_no_override [] mpClient mpRequest
    "first_name" "client-value" "request-value"
    (by decide) (by decide) rfl (by decide) rfl rfl (by decide)
    (by unfold KeysDistinct; decide)

/-! ### Claim C1: request-level headers and query parameters override
client defaults

The override holds for query parameters unconditionally, but the header
merge is followed by the agent/accept default-injection steps, which can
replace a blank request-level agent or accept value and overwrite the
secondary "X-User-Agent" slot.  The claim as stated is therefore false at
a blank request-level agent header; the amended statement excludes exactly
the keys those steps touch. -/

/-- Client of the C1 counterexample: agent header set to "A". -/
def cexClient : Client := { emptyClient with header := [(hdrUserAgentKey, "A")] }

/-- Request of the C1 counterexample: agent header set to the empty
string, a key present in both maps. -/
def cexRequest : Request := { emptyRequest with header := [(hdrUserAgentKey, "")] }

/-- C1 is false as stated: the agent key is present in the client's
defaults (value "A") and in the request's settings (value ""), yet the
assembled header does not carry the request-level value — the empty value
counts as unset and the default identifying string is injected over it. -/
theorem C1_counterexample :
    lookupKV cexClient.header hdrUserAgentKey = some "A"
    ∧ lookupKV cexRequest.header hdrUserAgentKey = some ""
    ∧ getKV (parseRequestHeader cexClient cexRequest).header hdrUserAgentKey ≠ "" := by
  refine ⟨rfl, rfl, ?_⟩
  decide

theorem agentStep_preserves (hdr : List (String × String)) (k w : String)
    (h : lookupKV hdr k = some w)
    (hkx : k ≠ "X-" ++ hdrUserAgentKey)
    (hkb : IsStringEmpty w = false ∨ k ≠ hdrUserAgentKey) :
    lookupKV (if IsStringEmpty (getKV hdr hdrUserAgentKey)
              then setKV hdr hdrUserAgentKey hdrUserAgentValue
              else setKV hdr ("X-" ++ hdrUserAgentKey) hdrUserAgentValue) k = some w := by
  by_cases hc : IsStringEmpty (getKV hdr hdrUserAgentKey) = true
  · rw [if_pos hc]
    have hkUA : k ≠ hdrUserAgentKey := by
      intro he; subst he
      have hw : getKV hdr hdrUserAgentKey = w := by simp [getKV, h]
      rcases hkb with hb | hb
      · rw [hw] at hc; rw [hc] at hb; exact Bool.noConfusion hb
      · exact hb rfl
    rw [lookupKV_setKV_ne _ _ _ _ (Ne.symm hkUA)]; exact h
  · rw [if_neg hc]
    rw [lookupKV_setKV_ne _ _ _ _ (Ne.symm hkx)]; exact h

theorem acceptStep_preserves (hdr : List (String × String)) (k w : String)
    (h : lookupKV hdr k = some w)
    (hkb : IsStringEmpty w = false ∨ k ≠ hdrAcceptKey) :
    lookupKV (if IsStringEmpty (getKV hdr hdrAcceptKey)
                  && !IsStringEmpty (getKV hdr hdrContentTypeKey)
              then setKV hdr hdrAcceptKey (getKV hdr hdrContentTypeKey)
              else hdr) k = some w := by
  by_cases hc : (IsStringEmpty (getKV hdr hdrAcceptKey)
      && !IsStringEmpty (getKV hdr hdrContentTypeKey)) = true
  · rw [if_pos hc]
    have hkA : k ≠ hdrAcceptKey := by
      intro he; subst he
      have hw : getKV hdr hdrAcceptKey = w := by simp [getKV, h]
      rcases hkb with hb | hb
      · rw [hw, hb] at hc; simp at hc
      · exact hb rfl
    rw [lookupKV_setKV_ne _ _ _ _ (Ne.symm hkA)]; exact h
  · rw [if_neg hc]; exact h

/-- C1 (amended): for every query-parameter key present in both maps the
request-level value wins unconditionally; for every header key present in
both maps the request-level value wins as well, except for the slots the
agent/accept default-injection steps touch — the secondary "X-User-Agent"
slot, and the agent or accept header itself when the request-level value
is blank (then the injected default, respectively the content-type value,
takes its place). -/
theorem C1_request_overrides_client (c : Client) (r : Request)
    (hqu : KeysDistinct r.url.query)
    (hqd : KeysDistinct r.queryParam)
    (hhd : KeysDistinct r.header) :
    (∀ k w, lookupKV r.queryParam k = some w →
       lookupKV (parseRequestURL c r).url.query k = some w)
    ∧ (∀ k w, k ≠ "X-" ++ hdrUserAgentKey →
       (IsStringEmpty w = false ∨ (k ≠ hdrUserAgentKey ∧ k ≠ hdrAcceptKey)) →
       lookupKV r.header k = some w →
       lookupKV (parseRequestHeader c r).header k = some w) := by
  constructor
  · intro k w h
    unfold parseRequestURL
    dsimp only
    have hmerged : KeysDistinct (setAll (setAll r.url.query c.queryParam) r.queryParam) :=
      keysDistinct_setAll _ _ (keysDistinct_setAll _ _ hqu)
    rw [lookupKV_encodeValues _ _ hmerged]
    exact lookupKV_setAll_of_lookup r.queryParam k w hqd h _
  · intro k w hkx hkb h
    unfold parseRequestHeader
    dsimp only
    have h0 : lookupKV (setAll (setAll [] c.header) r.header) k = some w :=
      lookupKV_setAll_of_lookup r.header k w hhd h _
    exact acceptStep_preserves _ k w
      (agentStep_preserves _ k w h0 hkx (hkb.imp id And.left))
      (hkb.imp id And.right)

/-- Client of the C1 witness: default accept header and query parameter. -/
def ovClient : Client :=
  { emptyClient with header := [(hdrAcceptKey, "text/plain")], queryParam := [("request_no", "1")] }

/-- Request of the C1 witness: both keys set again per-call. -/
def ovRequest : Request :=
  { emptyRequest with header := [(hdrAcceptKey, "application/json")], queryParam := [("request_no", "2")] }

/-- Witness for C1 (amended): the accept header and a query key present in
both maps; the request-level values win. -/
theorem C1_witness :
    KeysDistinct ovRequest.header
    ∧ lookupKV (parseRequestURL ovClient ovRequest).url.query "request_no" = some "2"
    ∧ lookupKV (parseRequestHeader ovClient ovRequest).header hdrAcceptKey
        = some "application/json" := by
  refine ⟨by unfold KeysDistinct; decide, ?_, ?_⟩
  · exact (C1_request_overrides_client ovClient ovRequest
      (by unfold KeysDistinct; decide) (by unfold KeysDistinct; decide)
      (by unfold KeysDistinct; decide)).1 "request_no" "2" rfl
  · exact (C1_request_overrides_client ovClient ovRequest
      (by unfold KeysDistinct; decide) (by unfold KeysDistinct; decide)
      (by unfold KeysDistinct; decide)).2 hdrAcceptKey "application/json"
      (by decide) (Or.inl (by decide)) rfl

end Resty
